import Mathlib

/- Verification of the JSON-driven video editor in src/main.py against its
   natural-language specification.  The script is shallow-embedded below:
   times, sizes and sample values are exact rationals; the external media
   library (moviepy) is represented at its interface boundary by a deep
   clip syntax whose observable attributes (duration, start, position,
   text attributes, size) are computed exactly as the library maintains
   them; Python dictionary access and exceptions are represented with
   Option and Except. -/

/-- Python runtime errors that the script can raise or catch. -/
inductive PyErr where
  | keyError
  | valueError
deriving DecidableEq

/-- Dictionary access d[k]: raises KeyError when the key is absent. -/
def req {α : Type} (o : Option α) : Except PyErr α :=
  match o with
  | some a => .ok a
  | none => .error .keyError

/-- One component of a stored position tuple: a keyword such as "center",
    or a number. -/
inductive PosAtom where
  | kw (s : String)
  | num (q : ℚ)
deriving DecidableEq

/-- A position value as the script passes it around: a raw keyword string
    from the plan, a raw two-number list from the plan, a pair (Python
    tuple) of components as produced by parse_position, or anything else
    (e.g. the library's default callable position attribute). -/
inductive Pos where
  | str (s : String)
  | list (x y : ℚ)
  | tuple (a b : PosAtom)
  | other
deriving DecidableEq

/-- Deep embedding of the media-library clip values the script builds.
    Constructors correspond to the library calls used in src/main.py:
    loaded asset handles, ColorClip, TextClip, subclipped, concatenation,
    CompositeVideoClip, with_duration / with_start / with_position /
    with_opacity, the FadeIn / FadeOut / GaussianBlur effects, resized,
    and the two time-varying position attachments made by apply_animation
    (which store the eagerly computed parse_position result plus the
    animation parameters captured by the closure). -/
inductive MClip where
  | asset (name : String) (dur : ℚ) (sz : ℚ × ℚ)
  | colorClip (sz : ℚ × ℚ) (rgb : ℕ × ℕ × ℕ) (dur : ℚ)
  | textClip (txt : String) (font : Option String) (fontSize : ℚ) (rgb : ℕ × ℕ × ℕ)
  | subclipped (c : MClip) (s e : ℚ)
  | concat (cs : List MClip)
  | composite (cs : List MClip)
  | withDuration (c : MClip) (d : ℚ)
  | withStart (c : MClip) (s : ℚ)
  | withPosition (c : MClip) (p : Pos)
  | withOpacity (c : MClip) (o : ℚ)
  | fadeIn (c : MClip) (d : ℚ)
  | fadeOut (c : MClip) (d : ℚ)
  | blur (c : MClip) (r : ℚ)
  | resized (c : MClip) (sz : ℚ × ℚ)
  | withBouncePos (c : MClip) (base : PosAtom × PosAtom) (height : ℚ) (dur : Option ℚ)
  | withScrollPos (c : MClip) (base : PosAtom × PosAtom) (direction : String) (dur : Option ℚ)

/-- Timeline start attribute of a clip (set by with_start, default 0);
    attribute-preserving library calls copy it. -/
def MClip.start : MClip → ℚ
  | .withStart _ s => s
  | .withDuration c _ => MClip.start c
  | .withPosition c _ => MClip.start c
  | .withOpacity c _ => MClip.start c
  | .fadeIn c _ => MClip.start c
  | .fadeOut c _ => MClip.start c
  | .blur c _ => MClip.start c
  | .resized c _ => MClip.start c
  | .withBouncePos c _ _ _ => MClip.start c
  | .withScrollPos c _ _ _ => MClip.start c
  | _ => 0

mutual

/-- Clip duration as the media library maintains it: a subclip lasts end
    minus start, a concatenation the sum of its parts, with_duration
    overrides, a bare TextClip has none yet (modelled 0), and a composite
    lasts until its last layer ends. -/
def MClip.duration : MClip → ℚ
  | .asset _ d _ => d
  | .colorClip _ _ d => d
  | .textClip _ _ _ _ => 0
  | .subclipped _ s e => e - s
  | .concat cs => MClip.sumDurations cs
  | .composite cs => MClip.maxEnd cs
  | .withDuration _ d => d
  | .withStart c _ => MClip.duration c
  | .withPosition c _ => MClip.duration c
  | .withOpacity c _ => MClip.duration c
  | .fadeIn c _ => MClip.duration c
  | .fadeOut c _ => MClip.duration c
  | .blur c _ => MClip.duration c
  | .resized c _ => MClip.duration c
  | .withBouncePos c _ _ _ => MClip.duration c
  | .withScrollPos c _ _ _ => MClip.duration c

/-- Sum of the durations of a list of clips (duration of a concatenation). -/
def MClip.sumDurations : List MClip → ℚ
  | [] => 0
  | c :: cs => MClip.duration c + MClip.sumDurations cs

/-- Latest end time among a list of layers (duration of a composite). -/
def MClip.maxEnd : List MClip → ℚ
  | [] => 0
  | c :: cs => max (MClip.start c + MClip.duration c) (MClip.maxEnd cs)

end

mutual

/-- Frame size of a clip; a concatenation or composite takes the size of
    its first element at the collaborator boundary. -/
def MClip.size : MClip → ℚ × ℚ
  | .asset _ _ sz => sz
  | .colorClip sz _ _ => sz
  | .textClip _ _ _ _ => (0, 0)
  | .subclipped c _ _ => MClip.size c
  | .concat cs => MClip.headSize cs
  | .composite cs => MClip.headSize cs
  | .withDuration c _ => MClip.size c
  | .withStart c _ => MClip.size c
  | .withPosition c _ => MClip.size c
  | .withOpacity c _ => MClip.size c
  | .fadeIn c _ => MClip.size c
  | .fadeOut c _ => MClip.size c
  | .blur c _ => MClip.size c
  | .resized _ sz => sz
  | .withBouncePos c _ _ _ => MClip.size c
  | .withScrollPos c _ _ _ => MClip.size c

/-- Size of the first clip in a list, (0,0) when empty. -/
def MClip.headSize : List MClip → ℚ × ℚ
  | [] => (0, 0)
  | c :: _ => MClip.size c

end

/-- Stored position attribute (set by with_position; attribute-preserving
    calls copy it; a time-varying position closure and library defaults
    are not a string or a list, represented by Pos.other). -/
def MClip.pos : MClip → Pos
  | .withPosition _ p => p
  | .subclipped c _ _ => MClip.pos c
  | .withDuration c _ => MClip.pos c
  | .withStart c _ => MClip.pos c
  | .withOpacity c _ => MClip.pos c
  | .fadeIn c _ => MClip.pos c
  | .fadeOut c _ => MClip.pos c
  | .blur c _ => MClip.pos c
  | .resized c _ => MClip.pos c
  | .withBouncePos _ _ _ _ => Pos.other
  | .withScrollPos _ _ _ _ => Pos.other
  | _ => Pos.other

/-- Python hasattr(clip, txt-attribute) together with the attribute value:
    a TextClip carries its text, attribute-preserving copies keep it,
    composites / concatenations / other clip classes do not have it. -/
def MClip.txt : MClip → Option String
  | .textClip t _ _ _ => some t
  | .subclipped c _ _ => MClip.txt c
  | .withDuration c _ => MClip.txt c
  | .withStart c _ => MClip.txt c
  | .withPosition c _ => MClip.txt c
  | .withOpacity c _ => MClip.txt c
  | .fadeIn c _ => MClip.txt c
  | .fadeOut c _ => MClip.txt c
  | .blur c _ => MClip.txt c
  | .resized c _ => MClip.txt c
  | .withBouncePos c _ _ _ => MClip.txt c
  | .withScrollPos c _ _ _ => MClip.txt c
  | _ => none

/-- Font attribute of a (possibly wrapped) text clip. -/
def MClip.font : MClip → Option String
  | .textClip _ f _ _ => f
  | .subclipped c _ _ => MClip.font c
  | .withDuration c _ => MClip.font c
  | .withStart c _ => MClip.font c
  | .withPosition c _ => MClip.font c
  | .withOpacity c _ => MClip.font c
  | .fadeIn c _ => MClip.font c
  | .fadeOut c _ => MClip.font c
  | .blur c _ => MClip.font c
  | .resized c _ => MClip.font c
  | .withBouncePos c _ _ _ => MClip.font c
  | .withScrollPos c _ _ _ => MClip.font c
  | _ => none

/-- Font-size attribute of a (possibly wrapped) text clip; only read by
    the script after a successful text-attribute check. -/
def MClip.fontsize : MClip → ℚ
  | .textClip _ _ fs _ => fs
  | .subclipped c _ _ => MClip.fontsize c
  | .withDuration c _ => MClip.fontsize c
  | .withStart c _ => MClip.fontsize c
  | .withPosition c _ => MClip.fontsize c
  | .withOpacity c _ => MClip.fontsize c
  | .fadeIn c _ => MClip.fontsize c
  | .fadeOut c _ => MClip.fontsize c
  | .blur c _ => MClip.fontsize c
  | .resized c _ => MClip.fontsize c
  | .withBouncePos c _ _ _ => MClip.fontsize c
  | .withScrollPos c _ _ _ => MClip.fontsize c
  | _ => 0

/-- Color attribute of a (possibly wrapped) text clip; only read by the
    script after a successful text-attribute check. -/
def MClip.colorAttr : MClip → ℕ × ℕ × ℕ
  | .textClip _ _ _ rgb => rgb
  | .subclipped c _ _ => MClip.colorAttr c
  | .withDuration c _ => MClip.colorAttr c
  | .withStart c _ => MClip.colorAttr c
  | .withPosition c _ => MClip.colorAttr c
  | .withOpacity c _ => MClip.colorAttr c
  | .fadeIn c _ => MClip.colorAttr c
  | .fadeOut c _ => MClip.colorAttr c
  | .blur c _ => MClip.colorAttr c
  | .resized c _ => MClip.colorAttr c
  | .withBouncePos c _ _ _ => MClip.colorAttr c
  | .withScrollPos c _ _ _ => MClip.colorAttr c
  | _ => (0, 0, 0)

/-- Duck-typed clip interface used by safe_subclip (src/main.py lines
    56-70), which is applied to both video and audio clips. -/
class ClipLike (α : Type) where
  durationOf : α → ℚ
  subclipOf : α → ℚ → ℚ → α

instance : ClipLike MClip := ⟨MClip.duration, MClip.subclipped⟩

/-- safe_subclip (src/main.py lines 56-70): clamp end_time to the clip
    duration when it exceeds it, then reject a start at or beyond the
    duration, then reject an empty or inverted range, else subclip. -/
def safe_subclip {α : Type} [ClipLike α] (clip : α) (start_time end_time : ℚ) : Option α :=
  let endT := if ClipLike.durationOf clip < end_time then ClipLike.durationOf clip else end_time
  if ClipLike.durationOf clip ≤ start_time then none
  else if endT ≤ start_time then none
  else some (ClipLike.subclipOf clip start_time endT)

/-- Python int() applied to an exact rational: truncation toward zero. -/
def pyInt (q : ℚ) : ℤ := if 0 ≤ q then ⌊q⌋ else -⌊-q⌋

/-- The library's concatenate_videoclips at the collaborator boundary. -/
def concatenate_videoclips (cs : List MClip) : MClip := .concat cs

/-- loop_clip (src/main.py lines 72-87): a clip at least as long as the
    requested duration is trimmed to it; a shorter clip is replicated
    int(duration / clip.duration) + 1 times, concatenated, and trimmed. -/
def loop_clip (clip : MClip) (dur : ℚ) : MClip :=
  if dur ≤ MClip.duration clip then MClip.subclipped clip 0 dur
  else
    let loops : ℤ := pyInt (dur / MClip.duration clip) + 1
    MClip.subclipped (concatenate_videoclips (List.replicate loops.toNat clip)) 0 dur

/-- Duration of a concatenation of n copies of one clip. -/
theorem sumDurations_replicate (n : ℕ) (c : MClip) :
    MClip.sumDurations (List.replicate n c) = n * MClip.duration c := by
  induction n with
  | zero => simp [MClip.sumDurations]
  | succ k ih =>
    simp only [List.replicate_succ, MClip.sumDurations, ih]
    push_cast
    ring

/-- C1: safe_subclip returns none when the start is at or beyond the
    source duration; otherwise an end beyond the source duration is
    clamped to it (not an error); if the clamped range is empty or
    inverted the result is none; otherwise it is exactly the requested
    sub-range of the source with the clamped end. -/
theorem claim_C1 (c : MClip) (s e : ℚ) :
    safe_subclip c s e =
      (if MClip.duration c ≤ s then none
       else if min e (MClip.duration c) ≤ s then none
       else some (MClip.subclipped c s (min e (MClip.duration c)))) := by
  unfold safe_subclip
  rcases le_or_lt (MClip.duration c) s with h | h
  · simp [ClipLike.durationOf, h]
  · have hds : ¬ MClip.duration c ≤ s := not_le.mpr h
    rcases lt_or_le (MClip.duration c) e with he | he
    · have : min e (MClip.duration c) = MClip.duration c := min_eq_right he.le
      simp [ClipLike.durationOf, ClipLike.subclipOf, hds, he, this]
    · have hne : ¬ MClip.duration c < e := not_lt.mpr he
      have : min e (MClip.duration c) = e := min_eq_left he
      simp [ClipLike.durationOf, ClipLike.subclipOf, hds, hne, this]

/-- C2: for a source of positive duration d and a target T with 0 < T,
    loop_clip yields a clip of duration exactly T; when d is at least T it
    is the leading sub-range of the source of length T; otherwise it is
    the leading T-length sub-range of floor(T/d) + 1 concatenated copies
    of the source, and T never exceeds the concatenation's total length
    (the trim stays within bounds). -/
theorem claim_C2 (c : MClip) (T : ℚ) (hd : 0 < MClip.duration c) (hT : 0 < T) :
    MClip.duration (loop_clip c T) = T ∧
    (T ≤ MClip.duration c → loop_clip c T = MClip.subclipped c 0 T) ∧
    (MClip.duration c < T →
      loop_clip c T =
        MClip.subclipped
          (MClip.concat (List.replicate ((⌊T / MClip.duration c⌋).toNat + 1) c)) 0 T ∧
      T ≤ MClip.duration
        (MClip.concat (List.replicate ((⌊T / MClip.duration c⌋).toNat + 1) c))) := by
  have hdiv : 0 < T / MClip.duration c := div_pos hT hd
  have hfl : 0 ≤ ⌊T / MClip.duration c⌋ := Int.floor_nonneg.mpr hdiv.le
  have hloops : (pyInt (T / MClip.duration c) + 1).toNat = (⌊T / MClip.duration c⌋).toNat + 1 := by
    unfold pyInt
    rw [if_pos hdiv.le]
    omega
  refine ⟨?_, ?_, ?_⟩
  · unfold loop_clip
    split
    · simp [MClip.duration]
    · simp [MClip.duration]
  · intro hle
    unfold loop_clip
    rw [if_pos hle]
  · intro hlt
    have hnle : ¬ T ≤ MClip.duration c := not_le.mpr hlt
    constructor
    · unfold loop_clip
      rw [if_neg hnle]
      simp only [concatenate_videoclips, hloops]
    · have hdur : MClip.duration
          (MClip.concat (List.replicate ((⌊T / MClip.duration c⌋).toNat + 1) c))
          = ((⌊T / MClip.duration c⌋).toNat + 1 : ℚ) * MClip.duration c := by
        show MClip.sumDurations _ = _
        rw [sumDurations_replicate]
        push_cast
        ring
      rw [hdur]
      have h1 : T / MClip.duration c < ⌊T / MClip.duration c⌋ + 1 := Int.lt_floor_add_one _
      have h2 : ((⌊T / MClip.duration c⌋).toNat : ℚ) = (⌊T / MClip.duration c⌋ : ℚ) := by
        exact_mod_cast Int.toNat_of_nonneg hfl
      rw [h2]
      have h3 : T < (⌊T / MClip.duration c⌋ + 1 : ℚ) * MClip.duration c := by
        calc T = T / MClip.duration c * MClip.duration c := by field_simp
        _ < ((⌊T / MClip.duration c⌋ : ℚ) + 1) * MClip.duration c := by
            exact mul_lt_mul_of_pos_right h1 hd
      linarith

/-- Witness for C2 at the spec's scenario: a 2.0 s source looped to a
    5.0 s target uses exactly floor(5/2) + 1 = 3 repetitions and yields
    exactly 5.0 s. -/
theorem claim_C2_witness :
    (0 : ℚ) < MClip.duration (MClip.asset "src" 2 (640, 480)) ∧ (0 : ℚ) < 5 ∧
    (MClip.duration (loop_clip (MClip.asset "src" 2 (640, 480)) 5) = 5 ∧
     ((5 : ℚ) ≤ MClip.duration (MClip.asset "src" 2 (640, 480)) →
       loop_clip (MClip.asset "src" 2 (640, 480)) 5 =
         MClip.subclipped (MClip.asset "src" 2 (640, 480)) 0 5) ∧
     (MClip.duration (MClip.asset "src" 2 (640, 480)) < 5 →
       loop_clip (MClip.asset "src" 2 (640, 480)) 5 =
         MClip.subclipped
           (MClip.concat (List.replicate ((⌊(5 : ℚ) / MClip.duration (MClip.asset "src" 2 (640, 480))⌋).toNat + 1)
             (MClip.asset "src" 2 (640, 480)))) 0 5 ∧
       (5 : ℚ) ≤ MClip.duration
         (MClip.concat (List.replicate ((⌊(5 : ℚ) / MClip.duration (MClip.asset "src" 2 (640, 480))⌋).toNat + 1)
           (MClip.asset "src" 2 (640, 480)))))) :=
  ⟨by norm_num [MClip.duration], by norm_num,
   claim_C2 (MClip.asset "src" 2 (640, 480)) 5 (by norm_num [MClip.duration]) (by norm_num)⟩

/-- parse_position (src/main.py lines 198-217): a known keyword string
    maps to centering keywords or fixed 0.1 / 0.9 margin ratios; a raw
    two-number list is scaled by the frame size; everything else,
    including an already-parsed tuple and the library's callable default,
    falls through to centered. -/
def parse_position (position : Pos) (video_size : ℚ × ℚ) : PosAtom × PosAtom :=
  match position with
  | .str s =>
    if s = "center" then (.kw "center", .kw "center")
    else if s = "top-center" then (.kw "center", .num (1/10))
    else if s = "bottom-center" then (.kw "center", .num (9/10))
    else if s = "top-left" then (.num (1/10), .num (1/10))
    else if s = "top-right" then (.num (9/10), .num (1/10))
    else if s = "bottom-left" then (.num (1/10), .num (9/10))
    else if s = "bottom-right" then (.num (9/10), .num (9/10))
    else (.kw "center", .kw "center")
  | .list x y => (.num (x * video_size.1), .num (y * video_size.2))
  | _ => (.kw "center", .kw "center")

/-- Named colors of color_string_to_rgb (src/main.py lines 117-134). -/
def color_map : List (String × (ℕ × ℕ × ℕ)) :=
  [("white", (255, 255, 255)), ("black", (0, 0, 0)), ("red", (255, 0, 0)),
   ("green", (0, 255, 0)), ("blue", (0, 0, 255)), ("yellow", (255, 255, 0)),
   ("cyan", (0, 255, 255)), ("magenta", (255, 0, 255)), ("orange", (255, 165, 0)),
   ("purple", (128, 0, 128)), ("pink", (255, 192, 203)), ("brown", (165, 42, 42)),
   ("gray", (128, 128, 128)), ("grey", (128, 128, 128)), ("gold", (255, 215, 0)),
   ("silver", (192, 192, 192))]

/-- Value of a hexadecimal digit character, as Python int(s, 16) reads it. -/
def hexVal (c : Char) : Option ℕ :=
  if '0' ≤ c ∧ c ≤ '9' then some (c.toNat - '0'.toNat)
  else if 'a' ≤ c ∧ c ≤ 'f' then some (c.toNat - 'a'.toNat + 10)
  else if 'A' ≤ c ∧ c ≤ 'F' then some (c.toNat - 'A'.toNat + 10)
  else none

/-- Two hex digits as one byte; a non-digit raises ValueError as Python
    int(s, 16) does. -/
def parseHexByte (a b : Char) : Except PyErr ℕ :=
  match hexVal a, hexVal b with
  | some x, some y => .ok (16 * x + y)
  | _, _ => .error .valueError

/-- Python str.lower() on one character, at the ASCII range the color
    names use. -/
def pyLowerChar (c : Char) : Char :=
  if 'A' ≤ c ∧ c ≤ 'Z' then Char.ofNat (c.toNat + 32) else c

/-- Python str.lower() applied character by character. -/
def pyLower (s : String) : String := ⟨s.data.map pyLowerChar⟩

/-- color_string_to_rgb (src/main.py lines 115-150): case-insensitive
    named-color lookup, then a six-digit hex form when the string starts
    with a hash (bad digits raise ValueError), else a warning and white. -/
def color_string_to_rgb (s : String) : Except PyErr (ℕ × ℕ × ℕ) :=
  match color_map.lookup (pyLower s) with
  | some rgb => .ok rgb
  | none =>
    match s.data with
    | '#' :: hex =>
      if hex.length = 6 then
        match hex with
        | [a, b, c, d, e, f] =>
          match parseHexByte a b, parseHexByte c d, parseHexByte e f with
          | .ok r, .ok g, .ok bl => .ok (r, g, bl)
          | _, _, _ => .error .valueError
        | _ => .ok (255, 255, 255)
      else .ok (255, 255, 255)
    | _ => .ok (255, 255, 255)

/-- One effect descriptor from the plan (a Python dict). -/
structure Effect where
  type? : Option String
  duration? : Option ℚ
  color? : Option String
  radius? : Option ℚ
  width? : Option ℚ
  offset? : Option (ℚ × ℚ)
  opacity? : Option ℚ

/-- Shadow positioning (src/main.py lines 283-286): each component of the
    stored position pair is shifted by the offset when numeric and kept
    otherwise; a raw list position has numeric components, so both shift;
    other stored shapes are degenerate there and are modelled unchanged. -/
def shadowShift (p : Pos) (off : ℚ × ℚ) : Pos :=
  match p with
  | .tuple a b =>
    .tuple (match a with | .num x => .num (x + off.1) | k => k)
           (match b with | .num y => .num (y + off.2) | k => k)
  | .list x y => .list (x + off.1) (y + off.2)
  | q => q

/-- One pass of the effect loop in apply_effects (src/main.py lines
    219-293): fade-in / fade-out wrap the clip; glow stacks a blurred
    copy, a 0.3-opacity color layer and the original; outline and shadow
    apply only to clips with the text attribute and pass other clips
    through; a missing type / duration / color key raises KeyError, a bad
    hex color ValueError, both uncaught here. -/
def apply_effect1 (clip : MClip) (eff : Effect) : Except PyErr MClip :=
  match eff.type? with
  | none => .error .keyError
  | some ty =>
    if ty = "fadein" then
      match eff.duration? with
      | some d => .ok (MClip.fadeIn clip d)
      | none => .error .keyError
    else if ty = "fadeout" then
      match eff.duration? with
      | some d => .ok (MClip.fadeOut clip d)
      | none => .error .keyError
    else if ty = "glow" then
      match eff.color? with
      | none => .error .keyError
      | some colS =>
        match color_string_to_rgb colS with
        | .error er => .error er
        | .ok glowColor =>
          let radius := (eff.radius?).getD 5
          let blurred := MClip.blur clip radius
          let colorLayer := MClip.withOpacity
            (MClip.colorClip (MClip.size clip) glowColor (MClip.duration clip)) (3/10)
          .ok (MClip.composite [blurred, colorLayer, clip])
    else if ty = "outline" then
      match MClip.txt clip with
      | none => .ok clip
      | some t =>
        match eff.color? with
        | none => .error .keyError
        | some colS =>
          match color_string_to_rgb colS with
          | .error er => .error er
          | .ok outlineColor =>
            let w := (eff.width?).getD 2
            let outlines := [(-w, 0), (w, 0), (0, -w), (0, w)].map (fun off =>
              MClip.withPosition
                (MClip.withDuration
                  (MClip.textClip t (MClip.font clip) (MClip.fontsize clip) outlineColor)
                  (MClip.duration clip))
                (Pos.tuple (.num off.1) (.num off.2)))
            .ok (MClip.composite (outlines ++ [clip]))
    else if ty = "shadow" then
      match MClip.txt clip with
      | none => .ok clip
      | some t =>
        match color_string_to_rgb ((eff.color?).getD "black") with
        | .error er => .error er
        | .ok shadowColor =>
          let off := (eff.offset?).getD (5, 5)
          let op := (eff.opacity?).getD (1/2)
          let shadow := MClip.withOpacity
            (MClip.withPosition
              (MClip.withDuration
                (MClip.textClip t (MClip.font clip) (MClip.fontsize clip) shadowColor)
                (MClip.duration clip))
              (shadowShift (MClip.pos clip) off))
            op
          .ok (MClip.composite [shadow, clip])
    else .ok clip

/-- apply_effects folds apply_effect1 over the effect list in plan order. -/
def apply_effects (clip : MClip) : List Effect → Except PyErr MClip
  | [] => .ok clip
  | e :: es =>
    match apply_effect1 clip e with
    | .error er => .error er
    | .ok c => apply_effects c es

/-- An audio clip at the collaborator boundary: an exact duration and a
    sample amplitude at every local time. -/
structure AClip where
  duration : ℚ
  sample : ℚ → ℚ

instance : ClipLike AClip :=
  ⟨AClip.duration, fun a s e => ⟨e - s, fun t => a.sample (s + t)⟩⟩

/-- The loaded-asset catalogs (name to handle) plus the external font
    lookup collaborator. -/
structure Env where
  video_assets : String → Option MClip
  gif_assets : String → Option MClip
  image_assets : String → Option MClip
  audio_assets : String → Option AClip
  fontFile : String → Option String

/-- Modelled from the spec: find_font_file is an external filesystem
    collaborator that returns a usable font path or none; the Env carries
    its resolution function. -/
def find_font_file (env : Env) (name : String) : Option String := env.fontFile name

/-- One entry of the editing list (a Python dict). -/
structure Edit where
  asset? : Option String
  start_time? : Option ℚ
  end_time? : Option ℚ
  effects? : Option (List Effect)

/-- The advisory total-duration pre-pass (src/main.py lines 386-394):
    reads every entry's asset key directly (KeyError when absent) and, for
    entries whose asset is in the catalog, also the two time keys, summing
    the positive advisory durations. -/
def total_duration_prepass (env : Env) : List Edit → Except PyErr ℚ
  | [] => .ok 0
  | ed :: rest =>
    match ed.asset? with
    | none => .error .keyError
    | some name =>
      match env.video_assets name with
      | none => total_duration_prepass env rest
      | some orig =>
        match ed.end_time?, ed.start_time? with
        | some e0, some s0 =>
          match total_duration_prepass env rest with
          | .error er => .error er
          | .ok restSum =>
            let requested := e0 - s0
            let actual := min requested (MClip.duration orig - s0)
            .ok ((if 0 < actual then actual else 0) + restSum)
        | _, _ => .error .keyError

/-- Segment resolution of one editing entry (src/main.py lines 402-421):
    a missing asset key or an asset absent from the catalog skips the
    entry with a warning; otherwise start_time is clamped to at most the
    asset duration minus 0.1 and end_time to at most the asset duration,
    and safe_subclip decides survival. -/
def edit_resolve (env : Env) (ed : Edit) : Except PyErr (Option MClip) :=
  match ed.asset? with
  | none => .ok none
  | some name =>
    match env.video_assets name with
    | none => .ok none
    | some orig =>
      match ed.start_time?, ed.end_time? with
      | some s0, some e0 =>
        .ok (safe_subclip orig (min s0 (MClip.duration orig - 1/10))
          (min e0 (MClip.duration orig)))
      | _, _ => .error .keyError

/-- The main editing loop (src/main.py lines 398-429): surviving segments
    get their effects applied and are collected in declaration order. -/
def process_edits (env : Env) : List Edit → Except PyErr (List MClip)
  | [] => .ok []
  | ed :: rest =>
    match edit_resolve env ed with
    | .error er => .error er
    | .ok none => process_edits env rest
    | .ok (some c) =>
      match apply_effects c ((ed.effects?).getD []) with
      | .error er => .error er
      | .ok c2 =>
        match process_edits env rest with
        | .error er => .error er
        | .ok rest2 => .ok (c2 :: rest2)

/-- Main-track construction (src/main.py lines 386-437): the pre-pass
    runs first, then the editing loop; surviving clips are concatenated,
    and when none survives the 1920 by 1080 black 30 s placeholder is the
    main track. -/
def build_final_video (env : Env) (edits : List Edit) : Except PyErr MClip :=
  match total_duration_prepass env edits with
  | .error er => .error er
  | .ok _ =>
    match process_edits env edits with
    | .error er => .error er
    | .ok [] => .ok (MClip.colorClip (1920, 1080) (0, 0, 0) 30)
    | .ok (c :: cs) => .ok (concatenate_videoclips (c :: cs))

/-- Generic form of the claim_C1 case analysis, reused for entries of the
    editing, overlay and audio loops. -/
theorem safe_subclip_eq {α : Type} [ClipLike α] (c : α) (s e : ℚ) :
    safe_subclip c s e =
      (if ClipLike.durationOf c ≤ s then none
       else if min e (ClipLike.durationOf c) ≤ s then none
       else some (ClipLike.subclipOf c s (min e (ClipLike.durationOf c)))) := by
  unfold safe_subclip
  rcases le_or_lt (ClipLike.durationOf c) s with h | h
  · simp [h]
  · have hds : ¬ ClipLike.durationOf c ≤ s := not_le.mpr h
    rcases lt_or_le (ClipLike.durationOf c) e with he | he
    · have hmin : min e (ClipLike.durationOf c) = ClipLike.durationOf c := min_eq_right he.le
      simp [hds, he, hmin]
    · have hne : ¬ ClipLike.durationOf c < e := not_lt.mpr he
      have hmin : min e (ClipLike.durationOf c) = e := min_eq_left he
      simp [hds, hne, hmin]

/-- C5 (amended): for an editing entry whose referenced asset is in the
    catalog and whose requested start_time is strictly below its
    end_time, the clamping of start_time to at most duration minus 0.1
    and of end_time to at most duration guarantees that segment
    resolution succeeds with a positive-length result; the original
    claim's unrestricted version fails when end_time is at most
    start_time (see the counterexample). -/
theorem claim_C5 (env : Env) (ed : Edit) (name : String) (orig : MClip) (s0 e0 : ℚ)
    (h1 : ed.asset? = some name) (h2 : env.video_assets name = some orig)
    (h3 : ed.start_time? = some s0) (h4 : ed.end_time? = some e0) (h5 : s0 < e0) :
    edit_resolve env ed =
      .ok (some (MClip.subclipped orig (min s0 (MClip.duration orig - 1/10))
        (min e0 (MClip.duration orig)))) ∧
    0 < MClip.duration (MClip.subclipped orig (min s0 (MClip.duration orig - 1/10))
        (min e0 (MClip.duration orig))) := by
  set d := MClip.duration orig with hd
  set sc := min s0 (d - 1/10) with hsc
  set ec := min e0 d with hec
  have hscd : sc < d := lt_of_le_of_lt (min_le_right _ _) (by linarith)
  have hsce : sc < ec := by
    rcases le_or_lt e0 d with h | h
    · have : ec = e0 := min_eq_left h
      rw [this]
      exact lt_of_le_of_lt (min_le_left _ _) h5
    · have : ec = d := min_eq_right h.le
      rw [this]
      exact hscd
  constructor
  · simp only [edit_resolve, h1, h2, h3, h4]
    rw [safe_subclip_eq]
    have hd1 : ClipLike.durationOf orig = d := rfl
    rw [hd1]
    rw [if_neg (not_le.mpr hscd)]
    have hmm : min ec d = ec := min_eq_left (min_le_right _ _)
    rw [hmm, if_neg (not_le.mpr hsce)]
    rfl
  · show 0 < ec - sc
    linarith

/-- Counterexample to C5 as stated: an editing entry whose asset (10 s
    long) is present but whose times are start 5, end 3 is skipped for an
    invalid time range even after clamping, so clamping does not
    guarantee success for arbitrary start_time / end_time. -/
def c5Env : Env where
  video_assets := fun n => if n = "v" then some (MClip.asset "v" 10 (1920, 1080)) else none
  gif_assets := fun _ => none
  image_assets := fun _ => none
  audio_assets := fun _ => none
  fontFile := fun _ => none

theorem claim_C5_counterexample :
    edit_resolve c5Env
      { asset? := some "v", start_time? := some 5, end_time? := some 3, effects? := none } =
      .ok none := by
  have hv : c5Env.video_assets "v" = some (MClip.asset "v" 10 (1920, 1080)) := rfl
  simp only [edit_resolve, hv]
  rw [safe_subclip_eq]
  have hd : ClipLike.durationOf (MClip.asset "v" 10 (1920, 1080)) = 10 := rfl
  rw [hd]
  norm_num [MClip.duration]

/-- Witness for the amended C5 at the spec's scenario: asset of duration
    10, entry start 8, end 12; resolution succeeds with the clamped
    segment of positive length 2. -/
theorem claim_C5_witness :
    (({ asset? := some "v", start_time? := some 8, end_time? := some 12,
        effects? := none } : Edit).asset? = some "v" ∧
     c5Env.video_assets "v" = some (MClip.asset "v" 10 (1920, 1080)) ∧ (8 : ℚ) < 12) ∧
    (edit_resolve c5Env
        { asset? := some "v", start_time? := some 8, end_time? := some 12, effects? := none } =
      .ok (some (MClip.subclipped (MClip.asset "v" 10 (1920, 1080))
        (min 8 (MClip.duration (MClip.asset "v" 10 (1920, 1080)) - 1/10))
        (min 12 (MClip.duration (MClip.asset "v" 10 (1920, 1080)))))) ∧
     0 < MClip.duration (MClip.subclipped (MClip.asset "v" 10 (1920, 1080))
        (min 8 (MClip.duration (MClip.asset "v" 10 (1920, 1080)) - 1/10))
        (min 12 (MClip.duration (MClip.asset "v" 10 (1920, 1080)))))) :=
  ⟨⟨rfl, rfl, by norm_num⟩,
   claim_C5 c5Env
     { asset? := some "v", start_time? := some 8, end_time? := some 12, effects? := none }
     "v" (MClip.asset "v" 10 (1920, 1080)) 8 12 rfl rfl rfl rfl (by norm_num)⟩

/-- An editing entry that cannot contribute a segment: its asset key is
    present but the referenced asset is either absent from the catalog,
    or present with both time keys given and the clamped range rejected
    by safe_subclip. -/
def editDoomed (env : Env) (ed : Edit) : Prop :=
  ∃ name, ed.asset? = some name ∧
    (env.video_assets name = none ∨
      ∃ orig s0 e0, env.video_assets name = some orig ∧
        ed.start_time? = some s0 ∧ ed.end_time? = some e0 ∧
        safe_subclip orig (min s0 (MClip.duration orig - 1/10))
          (min e0 (MClip.duration orig)) = none)

/-- The advisory pre-pass completes without error on a list of doomed
    entries. -/
theorem doomed_prepass (env : Env) (edits : List Edit)
    (h : ∀ ed ∈ edits, editDoomed env ed) :
    ∃ q, total_duration_prepass env edits = .ok q := by
  induction edits with
  | nil => exact ⟨0, rfl⟩
  | cons ed rest ih =>
    obtain ⟨name, hn, hcase⟩ := h ed (List.mem_cons_self _ _)
    obtain ⟨q, hq⟩ := ih (fun e he => h e (List.mem_cons_of_mem _ he))
    rcases hcase with hnone | ⟨orig, s0, e0, hsome, hs, he, _⟩
    · refine ⟨q, ?_⟩
      simp only [total_duration_prepass, hn, hnone, hq]
    · have hstep : total_duration_prepass env (ed :: rest) =
        .ok ((if 0 < min (e0 - s0) (MClip.duration orig - s0)
              then min (e0 - s0) (MClip.duration orig - s0) else 0) + q) := by
        simp only [total_duration_prepass, hn, hsome, he, hs, hq]
      exact ⟨_, hstep⟩

/-- The editing loop keeps no clip from a list of doomed entries. -/
theorem doomed_process (env : Env) (edits : List Edit)
    (h : ∀ ed ∈ edits, editDoomed env ed) :
    process_edits env edits = .ok [] := by
  induction edits with
  | nil => rfl
  | cons ed rest ih =>
    obtain ⟨name, hn, hcase⟩ := h ed (List.mem_cons_self _ _)
    have hrest := ih (fun e he => h e (List.mem_cons_of_mem _ he))
    have hres : edit_resolve env ed = .ok none := by
      rcases hcase with hnone | ⟨orig, s0, e0, hsome, hs, he, hnone2⟩
      · simp only [edit_resolve, hn, hnone]
      · simp only [edit_resolve, hn, hsome, hs, he, hnone2]
    simp only [process_edits, hres, hrest]

/-- C4: when no editing entry yields a surviving segment (empty list, or
    every entry's asset absent from the catalog or its clamped time range
    invalid), the main track is exactly the 1920 by 1080 solid black
    placeholder of 30 seconds, and the main-track phase completes without
    error. -/
theorem claim_C4 (env : Env) (edits : List Edit)
    (h : ∀ ed ∈ edits, editDoomed env ed) :
    build_final_video env edits = .ok (MClip.colorClip (1920, 1080) (0, 0, 0) 30) := by
  obtain ⟨q, hq⟩ := doomed_prepass env edits h
  have hp := doomed_process env edits h
  unfold build_final_video
  rw [hq, hp]

/-- Witness for C4: a catalog with one 10 s asset and two entries, one
    naming an unknown asset and one with an inverted time range; the main
    track degrades to the black placeholder. -/
def c4Env : Env where
  video_assets := fun n => if n = "v" then some (MClip.asset "v" 10 (1920, 1080)) else none
  gif_assets := fun _ => none
  image_assets := fun _ => none
  audio_assets := fun _ => none
  fontFile := fun _ => none

def c4Edits : List Edit :=
  [{ asset? := some "nope", start_time? := none, end_time? := none, effects? := none },
   { asset? := some "v", start_time? := some 5, end_time? := some 3, effects? := none }]

theorem claim_C4_witness :
    (∀ ed ∈ c4Edits, editDoomed c4Env ed) ∧
    build_final_video c4Env c4Edits = .ok (MClip.colorClip (1920, 1080) (0, 0, 0) 30) := by
  have h : ∀ ed ∈ c4Edits, editDoomed c4Env ed := by
    intro ed hed
    simp only [c4Edits, List.mem_cons, List.mem_singleton] at hed
    rcases hed with rfl | rfl | hfalse
    · exact ⟨"nope", rfl, Or.inl rfl⟩
    · refine ⟨"v", rfl, Or.inr ⟨MClip.asset "v" 10 (1920, 1080), 5, 3, rfl, rfl, rfl, ?_⟩⟩
      rw [safe_subclip_eq]
      have hd : ClipLike.durationOf (MClip.asset "v" 10 (1920, 1080)) = 10 := rfl
      rw [hd]
      norm_num [MClip.duration]
    · cases hfalse
  exact ⟨h, claim_C4 c4Env c4Edits h⟩

/-- create_typewriter_effect (src/main.py lines 295-334): a clip without
    the text attribute gets a plain fade-in of the requested duration; an
    empty text returns the clip unchanged; otherwise every character
    becomes its own TextClip of duration / n seconds, placed at the
    parent's stored position and started at i times that slice, and the
    composite of the character clips is returned. -/
def create_typewriter_effect (clip : MClip) (dur : ℚ) : MClip :=
  match MClip.txt clip with
  | none => MClip.fadeIn clip dur
  | some text =>
    if text = "" then clip
    else
      let characters := text.toList
      let char_duration := dur / (characters.length : ℚ)
      let char_clips := characters.enum.map (fun ic =>
        MClip.withStart
          (MClip.withPosition
            (MClip.withDuration
              (MClip.textClip (String.mk [ic.2]) (MClip.font clip) (MClip.fontsize clip)
                (MClip.colorAttr clip))
              char_duration)
            (MClip.pos clip))
          ((ic.1 : ℚ) * char_duration))
      if char_clips.isEmpty then clip else MClip.composite char_clips

/-- One animation descriptor from the plan (a Python dict). -/
structure Animation where
  type? : Option String
  height? : Option ℚ
  duration? : Option ℚ
  direction? : Option String

/-- apply_animation (src/main.py lines 336-383): bounce and scroll parse
    the stored position eagerly and attach a time-varying position
    closure capturing the parameters (the duration key is only read
    lazily inside the closure, so it is stored unchecked); an unknown
    scroll direction or animation type leaves the clip unchanged;
    typewriter delegates to create_typewriter_effect, and a missing
    duration key raises KeyError (it is read again, uncaught, in the
    fallback after the try block catches the first access). -/
def apply_animation (clip : MClip) (an : Animation) (video_size : ℚ × ℚ) :
    Except PyErr MClip :=
  match an.type? with
  | none => .error .keyError
  | some ty =>
    if ty = "bounce" then
      .ok (MClip.withBouncePos clip (parse_position (MClip.pos clip) video_size)
        ((an.height?).getD 20) an.duration?)
    else if ty = "scroll" then
      match an.direction? with
      | none => .error .keyError
      | some dir =>
        if dir = "left_to_right" then
          .ok (MClip.withScrollPos clip (parse_position (MClip.pos clip) video_size)
            "left_to_right" an.duration?)
        else if dir = "right_to_left" then
          .ok (MClip.withScrollPos clip (parse_position (MClip.pos clip) video_size)
            "right_to_left" an.duration?)
        else .ok clip
    else if ty = "typewriter" then
      match an.duration? with
      | some d => .ok (create_typewriter_effect clip d)
      | none => .error .keyError
    else .ok clip

/-- C6: on a clip carrying non-empty text of n characters, the typewriter
    effect is the composite of exactly n character sub-layers, the i-th
    having duration D/n, start offset i times D/n, and the parent's
    stored position; on a clip without the text attribute it degrades to
    a plain fade-in of duration D; apply_animation's typewriter branch is
    exactly this construction. -/
theorem claim_C6 (clip : MClip) (s : String) (D : ℚ)
    (h1 : MClip.txt clip = some s) (h2 : s ≠ "") :
    (∃ L : List MClip,
      create_typewriter_effect clip D = MClip.composite L ∧
      L.length = s.toList.length ∧
      ∀ i (hi : i < L.length),
        MClip.duration (L.get ⟨i, hi⟩) = D / (s.toList.length : ℚ) ∧
        MClip.start (L.get ⟨i, hi⟩) = (i : ℚ) * (D / (s.toList.length : ℚ)) ∧
        MClip.pos (L.get ⟨i, hi⟩) = MClip.pos clip) ∧
    (∀ c : MClip, MClip.txt c = none →
      create_typewriter_effect c D = MClip.fadeIn c D) ∧
    (∀ (c : MClip) (an : Animation) (vs : ℚ × ℚ),
      an.type? = some "typewriter" → an.duration? = some D →
      apply_animation c an vs = .ok (create_typewriter_effect c D)) := by
  refine ⟨?_, ?_, ?_⟩
  · refine ⟨(s.toList.enum.map (fun ic =>
      MClip.withStart
        (MClip.withPosition
          (MClip.withDuration
            (MClip.textClip (String.mk [ic.2]) (MClip.font clip) (MClip.fontsize clip)
              (MClip.colorAttr clip))
            (D / (s.toList.length : ℚ)))
          (MClip.pos clip))
        ((ic.1 : ℚ) * (D / (s.toList.length : ℚ))))), ?_, ?_, ?_⟩
    · have hchars : s.data ≠ [] := by
        intro hnil
        exact h2 (String.ext hnil)
      simp only [create_typewriter_effect, h1, if_neg h2]
      have hne : ¬ (s.toList.enum.map (fun ic =>
          MClip.withStart
            (MClip.withPosition
              (MClip.withDuration
                (MClip.textClip (String.mk [ic.2]) (MClip.font clip) (MClip.fontsize clip)
                  (MClip.colorAttr clip))
                (D / (s.toList.length : ℚ)))
              (MClip.pos clip))
            ((ic.1 : ℚ) * (D / (s.toList.length : ℚ))))).isEmpty = true := by
        simp [List.isEmpty_iff, hchars]
      rw [if_neg hne]
    · simp

    · intro i hi
      simp only [List.length_map, List.enum_length] at hi
      have hget : ∀ (hj : i < (s.toList.enum.map (fun ic =>
          MClip.withStart
            (MClip.withPosition
              (MClip.withDuration
                (MClip.textClip (String.mk [ic.2]) (MClip.font clip) (MClip.fontsize clip)
                  (MClip.colorAttr clip))
                (D / (s.toList.length : ℚ)))
              (MClip.pos clip))
            ((ic.1 : ℚ) * (D / (s.toList.length : ℚ))))).length),
          (s.toList.enum.map (fun ic =>
            MClip.withStart
              (MClip.withPosition
                (MClip.withDuration
                  (MClip.textClip (String.mk [ic.2]) (MClip.font clip) (MClip.fontsize clip)
                    (MClip.colorAttr clip))
                  (D / (s.toList.length : ℚ)))
                (MClip.pos clip))
              ((ic.1 : ℚ) * (D / (s.toList.length : ℚ))))).get ⟨i, hj⟩ =
            MClip.withStart
              (MClip.withPosition
                (MClip.withDuration
                  (MClip.textClip (String.mk [s.toList.get ⟨i, by
                      simpa using hi⟩]) (MClip.font clip) (MClip.fontsize clip)
                    (MClip.colorAttr clip))
                  (D / (s.toList.length : ℚ)))
                (MClip.pos clip))
              ((i : ℚ) * (D / (s.toList.length : ℚ))) := by
        intro hj
        simp [List.getElem_map, List.getElem_enum]
      rw [hget]
      refine ⟨rfl, rfl, rfl⟩
  · intro c hc
    unfold create_typewriter_effect
    rw [hc]
  · intro c an vs hty hdur
    simp only [apply_animation, hty, hdur]
    rfl

/-- Witness for C6 at the spec's scenario: typewriter on text "AB" over
    2.0 s produces exactly 2 character sub-layers, each of duration 1.0,
    starting at 0.0 and 1.0. -/
theorem claim_C6_witness :
    (MClip.txt (MClip.withPosition (MClip.textClip "AB" none 40 (255, 255, 255))
        (Pos.tuple (.kw "center") (.kw "center"))) = some "AB" ∧ "AB" ≠ "") ∧
    ((∃ L : List MClip,
      create_typewriter_effect (MClip.withPosition (MClip.textClip "AB" none 40 (255, 255, 255))
        (Pos.tuple (.kw "center") (.kw "center"))) 2 = MClip.composite L ∧
      L.length = ("AB" : String).toList.length ∧
      ∀ i (hi : i < L.length),
        MClip.duration (L.get ⟨i, hi⟩) = 2 / (("AB" : String).toList.length : ℚ) ∧
        MClip.start (L.get ⟨i, hi⟩) = (i : ℚ) * (2 / (("AB" : String).toList.length : ℚ)) ∧
        MClip.pos (L.get ⟨i, hi⟩) =
          MClip.pos (MClip.withPosition (MClip.textClip "AB" none 40 (255, 255, 255))
            (Pos.tuple (.kw "center") (.kw "center")))) ∧
    (∀ c : MClip, MClip.txt c = none →
      create_typewriter_effect c 2 = MClip.fadeIn c 2) ∧
    (∀ (c : MClip) (an : Animation) (vs : ℚ × ℚ),
      an.type? = some "typewriter" → an.duration? = some 2 →
      apply_animation c an vs = .ok (create_typewriter_effect c 2))) :=
  ⟨⟨rfl, by decide⟩,
   claim_C6 (MClip.withPosition (MClip.textClip "AB" none 40 (255, 255, 255))
     (Pos.tuple (.kw "center") (.kw "center"))) "AB" 2 rfl (by decide)⟩

/-- Python int() on a real value: truncation toward zero, as applied to
    the bounce offset (src/main.py line 351). -/
noncomputable def pyIntR (x : ℝ) : ℤ := if 0 ≤ x then ⌊x⌋ else -⌊-x⌋

/-- The bounce offset computed inside the closure (src/main.py line 351):
    int(bounce_height * abs(sin(t * pi / duration))). -/
noncomputable def bounce_offset (height dur t : ℝ) : ℤ :=
  pyIntR (height * |Real.sin (t * Real.pi / dur)|)

/-- The bounce position closure (src/main.py lines 342-354): x is the
    first component of the eagerly parsed position; the base y is the
    parsed second component when numeric, else half the frame height; the
    truncated offset is subtracted from the base y. -/
noncomputable def bounce_pos (position : PosAtom × PosAtom) (video_size : ℚ × ℚ)
    (height dur t : ℝ) : PosAtom × ℝ :=
  let y_pos : ℝ := match position.2 with
    | .num y => (y : ℝ)
    | .kw _ => (video_size.2 : ℝ) * (1 / 2)
  (position.1, y_pos - (bounce_offset height dur t : ℝ))

/-- Counterexample to C7 as stated: a layer whose stored position is the
    already-applied pair (100, 200) — as every overlay has after
    with_position — is not bounced around its own base (100, 200):
    parse_position maps the stored pair to the centering fallback, so at
    height 20, duration 2, t = 1/2 the closure does not return
    (100, 200 − 20·|sin(t·π/duration)|). -/
theorem claim_C7_counterexample :
    bounce_pos (parse_position (Pos.tuple (.num 100) (.num 200)) (1920, 1080)) (1920, 1080)
        20 2 (1/2) ≠
      (PosAtom.num 100, (200 : ℝ) - 20 * |Real.sin ((1/2 : ℝ) * Real.pi / 2)|) := by
  intro h
  have h1 := congrArg Prod.fst h
  simp only [bounce_pos, parse_position] at h1
  cases h1

/-- C7 (amended): the bounce branch re-parses the clip's stored position;
    a stored (already parsed or otherwise non-raw) pair falls back to the
    centering keywords, so the attached position function returns x =
    "center" and y = frame_height/2 minus the offset, where the offset is
    the integer truncation of height times the absolute sine arch:
    offset(0) = 0, offset(duration/2) = floor(height), offset(duration) =
    0, and the offset is non-negative throughout for non-negative
    height. -/
theorem claim_C7 (a b : PosAtom) (W H : ℚ) (height dur t : ℝ)
    (hD : dur ≠ 0) (hh : 0 ≤ height) :
    (∀ t2 : ℝ, bounce_pos (parse_position (Pos.tuple a b) (W, H)) (W, H) height dur t2 =
      (PosAtom.kw "center", (H : ℝ) * (1 / 2) - (bounce_offset height dur t2 : ℝ))) ∧
    bounce_offset height dur 0 = 0 ∧
    bounce_offset height dur (dur / 2) = ⌊height⌋ ∧
    bounce_offset height dur dur = 0 ∧
    (0 : ℤ) ≤ bounce_offset height dur t := by
  refine ⟨?_, ?_, ?_, ?_, ?_⟩
  · intro t2
    simp [bounce_pos, parse_position]
  · simp [bounce_offset, pyIntR]
  · have harg : dur / 2 * Real.pi / dur = Real.pi / 2 := by
      field_simp
      ring
    simp only [bounce_offset, harg, Real.sin_pi_div_two, abs_one, mul_one]
    unfold pyIntR
    rw [if_pos hh]
  · have harg : dur * Real.pi / dur = Real.pi := by
      field_simp
    simp [bounce_offset, harg, pyIntR]
  · have hx : 0 ≤ height * |Real.sin (t * Real.pi / dur)| :=
      mul_nonneg hh (abs_nonneg _)
    unfold bounce_offset pyIntR
    rw [if_pos hx]
    exact Int.floor_nonneg.mpr hx

/-- Witness for the amended C7 at height 20, duration 2, frame 1920 by
    1080, stored position pair (100, 200). -/
theorem claim_C7_witness :
    ((2 : ℝ) ≠ 0 ∧ (0 : ℝ) ≤ 20) ∧
    ((∀ t2 : ℝ, bounce_pos (parse_position (Pos.tuple (.num 100) (.num 200)) (1920, 1080))
        (1920, 1080) 20 2 t2 =
      (PosAtom.kw "center", ((1080 : ℚ) : ℝ) * (1 / 2) - (bounce_offset 20 2 t2 : ℝ))) ∧
    bounce_offset 20 2 0 = 0 ∧
    bounce_offset 20 2 (2 / 2) = ⌊(20 : ℝ)⌋ ∧
    bounce_offset 20 2 2 = 0 ∧
    (0 : ℤ) ≤ bounce_offset 20 2 1) :=
  ⟨⟨by norm_num, by norm_num⟩,
   claim_C7 (.num 100) (.num 200) 1920 1080 20 2 1 (by norm_num) (by norm_num)⟩

/-- A background box descriptor inside a text overlay (a Python dict). -/
structure Background where
  color? : Option String := none
  opacity? : Option ℚ := none

/-- One overlay descriptor from the plan (a Python dict); every key may
    be absent. -/
structure Overlay where
  type? : Option String := none
  asset? : Option String := none
  text? : Option String := none
  start_time? : Option ℚ := none
  end_time? : Option ℚ := none
  position? : Option Pos := none
  size? : Option (ℚ × ℚ) := none
  opacity? : Option ℚ := none
  effects? : Option (List Effect) := none
  animation? : Option Animation := none
  font? : Option String := none
  font_size? : Option ℚ := none
  color? : Option String := none
  background? : Option Background := none

/-- The try body of the text-overlay branch (src/main.py lines 499-526):
    font lookup (key defaulted to Arial.ttf), color conversion, the
    TextClip with the requested duration, and the optional background
    box; every error here is caught by the surrounding try and skips the
    overlay. -/
def textTry (env : Env) (ov : Overlay) (dur : ℚ) : Except PyErr MClip :=
  let font_path := find_font_file env ((ov.font?).getD "Arial.ttf")
  match ov.color? with
  | none => .error .keyError
  | some colS =>
    match color_string_to_rgb colS with
    | .error er => .error er
    | .ok rgb =>
      match ov.text?, ov.font_size? with
      | some txt, some fs =>
        let base := MClip.withDuration (MClip.textClip txt font_path fs rgb) dur
        match ov.background? with
        | none => .ok base
        | some bg =>
          match bg.color? with
          | none => .error .keyError
          | some bgColS =>
            match color_string_to_rgb bgColS with
            | .error er => .error er
            | .ok bgRgb =>
              match bg.opacity? with
              | none => .error .keyError
              | some bgOp =>
                .ok (MClip.composite
                  [MClip.withOpacity
                    (MClip.colorClip (MClip.size base) bgRgb (MClip.duration base)) bgOp,
                   base])
      | _, _ => .error .keyError

/-- Base-layer construction for one overlay (src/main.py lines 441-533):
    the loop header reads the type key directly (KeyError when absent);
    video / gif / image overlays skip on a missing asset key or an asset
    absent from the catalog but read their time keys directly (KeyError
    when absent); video resolves via safe_subclip on the overlay's own
    start and end; gif loops when the requested duration exceeds the
    source and otherwise subclips from source offset 0; image holds for
    the requested duration; text builds its clip inside a try whose
    failures skip the overlay; an unknown type or a failed branch leaves
    no clip and is skipped. -/
def overlayBase (env : Env) (ov : Overlay) : Except PyErr (Option MClip) :=
  match ov.type? with
  | none => .error .keyError
  | some ty =>
    if ty = "video" then
      match ov.asset? with
      | none => .ok none
      | some a =>
        match env.video_assets a with
        | none => .ok none
        | some orig =>
          match ov.start_time?, ov.end_time? with
          | some s, some e => .ok (safe_subclip orig s e)
          | _, _ => .error .keyError
    else if ty = "gif" then
      match ov.asset? with
      | none => .ok none
      | some a =>
        match env.gif_assets a with
        | none => .ok none
        | some orig =>
          match ov.end_time?, ov.start_time? with
          | some e, some s =>
            if MClip.duration orig < e - s then .ok (some (loop_clip orig (e - s)))
            else .ok (safe_subclip orig 0 (e - s))
          | _, _ => .error .keyError
    else if ty = "image" then
      match ov.asset? with
      | none => .ok none
      | some a =>
        match env.image_assets a with
        | none => .ok none
        | some img =>
          match ov.end_time?, ov.start_time? with
          | some e, some s => .ok (some (MClip.withDuration img (e - s)))
          | _, _ => .error .keyError
    else if ty = "text" then
      match ov.end_time?, ov.start_time? with
      | some e, some s =>
        match textTry env ov (e - s) with
        | .ok c => .ok (some c)
        | .error _ => .ok none
      | _, _ => .error .keyError
    else .ok none

/-- The uniform overlay finishing steps (src/main.py lines 536-556):
    optional resize by ratios of the final video frame, mandatory
    position (the position key is read directly: KeyError when absent),
    optional opacity, optional effects, optional animation, and the
    with_start anchor at the overlay's start_time. -/
def overlayFinish (final_video : MClip) (ov : Overlay) (clip : MClip) :
    Except PyErr MClip :=
  let c1 := match ov.size? with
    | some sz => MClip.resized clip
        (sz.1 * (MClip.size final_video).1, sz.2 * (MClip.size final_video).2)
    | none => clip
  match ov.position? with
  | none => .error .keyError
  | some p =>
    let c2 := MClip.withPosition c1
      (Pos.tuple (parse_position p (MClip.size final_video)).1
        (parse_position p (MClip.size final_video)).2)
    let c3 := match ov.opacity? with
      | some o => MClip.withOpacity c2 o
      | none => c2
    match (match ov.effects? with
           | some effs => apply_effects c3 effs
           | none => .ok c3) with
    | .error er => .error er
    | .ok c4 =>
      match (match ov.animation? with
             | some an => apply_animation c4 an (MClip.size final_video)
             | none => .ok c4) with
      | .error er => .error er
      | .ok c5 =>
        match ov.start_time? with
        | some s => .ok (MClip.withStart c5 s)
        | none => .error .keyError

/-- Processing of one overlay (src/main.py lines 441-558): base branch,
    the skip check, then the uniform finishing steps. -/
def processOverlay (env : Env) (final_video : MClip) (ov : Overlay) :
    Except PyErr (Option MClip) :=
  match overlayBase env ov with
  | .error er => .error er
  | .ok none => .ok none
  | .ok (some c) =>
    match overlayFinish final_video ov c with
    | .error er => .error er
    | .ok c2 => .ok (some c2)

/-- The overlay loop (src/main.py lines 440-558): surviving overlays are
    collected in declaration order; an uncaught error aborts the run. -/
def process_overlays (env : Env) (final_video : MClip) :
    List Overlay → Except PyErr (List MClip)
  | [] => .ok []
  | ov :: rest =>
    match processOverlay env final_video ov with
    | .error er => .error er
    | .ok none => process_overlays env final_video rest
    | .ok (some c) =>
      match process_overlays env final_video rest with
      | .error er => .error er
      | .ok rest2 => .ok (c :: rest2)

/-- Compositing step (src/main.py lines 560-563): when any overlay
    survives, the final video is the composite with the main track first
    (bottom) and the overlay layers after it in declaration order. -/
def build_with_overlays (env : Env) (edits : List Edit) (ovs : List Overlay) :
    Except PyErr MClip :=
  match build_final_video env edits with
  | .error er => .error er
  | .ok fv =>
    match process_overlays env fv ovs with
    | .error er => .error er
    | .ok [] => .ok fv
    | .ok (l :: ls) => .ok (MClip.composite (fv :: l :: ls))

/-- The surviving layer of one overlay's processing result, when the
    loop did not abort. -/
def okJoin : Except PyErr (Option MClip) → Option MClip
  | .ok o => o
  | .error _ => none

/-- Modelled from the spec: the external CompositeVideoClip draws list
    elements in order with later elements on top, so the visible layer at
    an instant and point is the highest-index layer that is active and
    covers it; activity and coverage are abstracted as a predicate on the
    layer index. -/
def topVisible (active : ℕ → ℚ → ℚ × ℚ → Bool) (n : ℕ) (t : ℚ) (p : ℚ × ℚ) : Option ℕ :=
  (List.range n).foldl (fun acc i => if active i t p then some i else acc) none

/-- A covering layer forces the visible layer to have at least its
    index. -/
theorem topVisible_ge (active : ℕ → ℚ → ℚ × ℚ → Bool) (n j : ℕ) (t : ℚ) (p : ℚ × ℚ)
    (hj : j < n) (hact : active j t p = true) :
    ∃ k, topVisible active n t p = some k ∧ j ≤ k := by
  induction n with
  | zero => omega
  | succ m ih =>
    unfold topVisible
    rw [List.range_succ, List.foldl_append]
    simp only [List.foldl_cons, List.foldl_nil]
    by_cases hm : active m t p = true
    · rw [if_pos hm]
      exact ⟨m, rfl, Nat.lt_succ_iff.mp hj⟩
    · rw [if_neg hm]
      have hjm : j < m := by
        rcases Nat.lt_succ_iff_lt_or_eq.mp hj with h | h
        · exact h
        · exact absurd hact (h ▸ hm)
      obtain ⟨k, hk1, hk2⟩ := ih hjm
      exact ⟨k, hk1, hk2⟩

/-- C9: the overlay loop collects surviving overlays exactly in
    declaration order (a successful run equals the order-preserving
    filterMap of per-overlay processing); the composite is built with
    the main track first (bottom) and the overlay layers after it; and
    under the compositing semantics (later list elements drawn on top) a
    covering layer hides every lower-indexed layer at each covered
    instant and point, so a later-declared overlay is drawn on top of an
    earlier one wherever both are present and the draw order is stable
    across the run. -/
theorem claim_C9 :
    (∀ (env : Env) (fv : MClip) (ovs : List Overlay) (L : List MClip),
      process_overlays env fv ovs = .ok L →
      L = ovs.filterMap (fun ov => okJoin (processOverlay env fv ov))) ∧
    (∀ (env : Env) (edits : List Edit) (ovs : List Overlay) (fv : MClip)
        (l : MClip) (ls : List MClip),
      build_final_video env edits = .ok fv →
      process_overlays env fv ovs = .ok (l :: ls) →
      build_with_overlays env edits ovs = .ok (MClip.composite (fv :: l :: ls))) ∧
    (∀ (active : ℕ → ℚ → ℚ × ℚ → Bool) (n i j : ℕ) (t : ℚ) (p : ℚ × ℚ),
      i < j → j < n → active j t p = true →
      topVisible active n t p ≠ some i) := by
  refine ⟨?_, ?_, ?_⟩
  · intro env fv ovs
    induction ovs with
    | nil =>
      intro L h
      cases h
      rfl
    | cons ov rest ih =>
      intro L h
      simp only [process_overlays] at h
      cases hpo : processOverlay env fv ov with
      | error er => rw [hpo] at h; cases h
      | ok o =>
        cases o with
        | none =>
          rw [hpo] at h
          have hf : okJoin (processOverlay env fv ov) = none := by rw [hpo]; rfl
          simp only [List.filterMap_cons, hf]
          exact ih L h
        | some c =>
          rw [hpo] at h
          cases hrest : process_overlays env fv rest with
          | error er => rw [hrest] at h; cases h
          | ok rest2 =>
            rw [hrest] at h
            cases h
            have hf : okJoin (processOverlay env fv ov) = some c := by rw [hpo]; rfl
            simp only [List.filterMap_cons, hf]
            rw [ih rest2 hrest]
  · intro env edits ovs fv l ls h1 h2
    simp only [build_with_overlays, h1, h2]
  · intro active n i j t p hij hjn hact heq
    obtain ⟨k, hk1, hk2⟩ := topVisible_ge active n j t p hjn hact
    rw [heq] at hk1
    cases hk1
    omega

/-- Witness catalog and overlays for C9 and C10. -/
def c9Env : Env where
  video_assets := fun n => if n = "v" then some (MClip.asset "v" 10 (1920, 1080)) else none
  gif_assets := fun n => if n = "g" then some (MClip.asset "g" 2 (320, 240)) else none
  image_assets := fun _ => none
  audio_assets := fun _ => none
  fontFile := fun _ => none

def c9Ov1 : Overlay :=
  { type? := some "video", asset? := some "v", start_time? := some 1, end_time? := some 3,
    position? := some (Pos.str "center") }

def c9Ov2 : Overlay :=
  { type? := some "video", asset? := some "v", start_time? := some 2, end_time? := some 4,
    position? := some (Pos.str "center") }

def c9L1 : MClip :=
  MClip.withStart (MClip.withPosition (MClip.subclipped (MClip.asset "v" 10 (1920, 1080)) 1 3)
    (Pos.tuple (.kw "center") (.kw "center"))) 1

def c9L2 : MClip :=
  MClip.withStart (MClip.withPosition (MClip.subclipped (MClip.asset "v" 10 (1920, 1080)) 2 4)
    (Pos.tuple (.kw "center") (.kw "center"))) 2

/-- Witness for C9: two surviving video overlays on the placeholder main
    track keep declaration order, the composite stacks main first, and
    with layers 1 and 2 both covering a point the visible layer is never
    the earlier overlay (index 1) when the later one (index 2) covers. -/
theorem claim_C9_witness :
    ([c9L1, c9L2] =
      [c9Ov1, c9Ov2].filterMap (fun ov =>
        okJoin (processOverlay c9Env (MClip.colorClip (1920, 1080) (0, 0, 0) 30) ov))) ∧
    (build_with_overlays c9Env [] [c9Ov1, c9Ov2] =
      .ok (MClip.composite (MClip.colorClip (1920, 1080) (0, 0, 0) 30 :: c9L1 :: [c9L2]))) ∧
    topVisible (fun i _ _ => i == 1 || i == 2) 3 0 (0, 0) ≠ some 1 :=
  ⟨claim_C9.1 c9Env (MClip.colorClip (1920, 1080) (0, 0, 0) 30) [c9Ov1, c9Ov2]
      [c9L1, c9L2] (by rfl),
   claim_C9.2.1 c9Env [] [c9Ov1, c9Ov2] (MClip.colorClip (1920, 1080) (0, 0, 0) 30)
      c9L1 [c9L2] (by rfl) (by rfl),
   claim_C9.2.2 (fun i _ _ => i == 1 || i == 2) 3 1 2 0 (0, 0) (by norm_num) (by norm_num)
      (by rfl)⟩

/-- C10: a surviving video overlay uses its single start_time twice — as
    the trim start inside the source asset (the resolved base segment is
    the source sub-range starting at offset start_time) and, through the
    uniform finishing steps, as the layer's absolute anchor on the output
    timeline (with_start start_time); a gif overlay's base segment is by
    contrast always trimmed (or looped) from source offset 0. -/
theorem claim_C10 :
    (∀ (env : Env) (ov : Overlay) (a : String) (orig : MClip) (s e : ℚ),
      ov.type? = some "video" → ov.asset? = some a →
      env.video_assets a = some orig → ov.start_time? = some s → ov.end_time? = some e →
      s < MClip.duration orig → s < min e (MClip.duration orig) →
      overlayBase env ov =
        .ok (some (MClip.subclipped orig s (min e (MClip.duration orig))))) ∧
    (∀ (env : Env) (ov : Overlay) (a : String) (g : MClip) (s e : ℚ),
      ov.type? = some "gif" → ov.asset? = some a →
      env.gif_assets a = some g → ov.start_time? = some s → ov.end_time? = some e →
      0 < e - s →
      overlayBase env ov =
        .ok (some (if MClip.duration g < e - s then loop_clip g (e - s)
          else MClip.subclipped g 0 (e - s))) ∧
      (MClip.duration g < e - s →
        ∃ src, loop_clip g (e - s) = MClip.subclipped src 0 (e - s))) ∧
    (∀ (fv : MClip) (ov : Overlay) (c : MClip) (s : ℚ) (p : Pos),
      ov.position? = some p → ov.start_time? = some s →
      ov.size? = none → ov.opacity? = none → ov.effects? = none → ov.animation? = none →
      overlayFinish fv ov c =
        .ok (MClip.withStart (MClip.withPosition c
          (Pos.tuple (parse_position p (MClip.size fv)).1
            (parse_position p (MClip.size fv)).2)) s)) := by
  refine ⟨?_, ?_, ?_⟩
  · intro env ov a orig s e hty ha hcat hs he hsd hse
    simp only [overlayBase, hty, ha, hcat, hs, he, if_pos rfl]
    rw [safe_subclip_eq]
    have hd : ClipLike.durationOf orig = MClip.duration orig := rfl
    rw [hd]
    rw [if_neg (not_le.mpr hsd), if_neg (not_le.mpr hse)]
    rfl
  · intro env ov a g s e hty ha hcat hs he hpos
    constructor
    · by_cases hlt : MClip.duration g < e - s
      · simp only [overlayBase, hty, ha, hcat, hs, he]
        change (if MClip.duration g < e - s then Except.ok (some (loop_clip g (e - s)))
          else Except.ok (safe_subclip g 0 (e - s))) = _
        rw [if_pos hlt, if_pos hlt]
      · simp only [overlayBase, hty, ha, hcat, hs, he]
        change (if MClip.duration g < e - s then Except.ok (some (loop_clip g (e - s)))
          else Except.ok (safe_subclip g 0 (e - s))) = _
        rw [if_neg hlt, if_neg hlt]
        rw [safe_subclip_eq]
        have hd : ClipLike.durationOf g = MClip.duration g := rfl
        rw [hd]
        have hdur : e - s ≤ MClip.duration g := not_lt.mp hlt
        have h0d : ¬ MClip.duration g ≤ 0 := not_le.mpr (lt_of_lt_of_le hpos hdur)
        have hmin : min (e - s) (MClip.duration g) = e - s := min_eq_left hdur
        rw [if_neg h0d, hmin, if_neg (not_le.mpr hpos)]
        rfl
    · intro hlt
      refine ⟨concatenate_videoclips
        (List.replicate (pyInt ((e - s) / MClip.duration g) + 1).toNat g), ?_⟩
      unfold loop_clip
      rw [if_neg (not_le.mpr hlt)]
  · intro fv ov c s p hp hs hsz hop heff han
    simp only [overlayFinish, hp, hs, hsz, hop, heff, han]

/-- Witness overlays for C10: a video overlay trimmed from source offset
    2 and anchored at 2, and gif overlays in both the loop and the trim
    regime. -/
def c10OvV : Overlay :=
  { type? := some "video", asset? := some "v", start_time? := some 2, end_time? := some 4,
    position? := some (Pos.str "center") }

def c10OvG : Overlay :=
  { type? := some "gif", asset? := some "g", start_time? := some 1, end_time? := some 6,
    position? := some (Pos.str "center") }

/-- Witness for C10: at the concrete catalog, the video overlay's base is
    the source range [2, 4) (trim begins at the overlay's start_time, not
    0), the gif overlay's base starts at source offset 0, and the
    finishing steps anchor a layer at its start_time. -/
theorem claim_C10_witness :
    (overlayBase c9Env c10OvV =
      .ok (some (MClip.subclipped (MClip.asset "v" 10 (1920, 1080)) 2
        (min 4 (MClip.duration (MClip.asset "v" 10 (1920, 1080))))))) ∧
    ((overlayBase c9Env c10OvG =
      .ok (some (if MClip.duration (MClip.asset "g" 2 (320, 240)) < 6 - 1
        then loop_clip (MClip.asset "g" 2 (320, 240)) (6 - 1)
        else MClip.subclipped (MClip.asset "g" 2 (320, 240)) 0 (6 - 1)))) ∧
     (MClip.duration (MClip.asset "g" 2 (320, 240)) < 6 - 1 →
        ∃ src, loop_clip (MClip.asset "g" 2 (320, 240)) (6 - 1) =
          MClip.subclipped src 0 (6 - 1))) ∧
    (overlayFinish (MClip.colorClip (1920, 1080) (0, 0, 0) 30) c10OvV
        (MClip.subclipped (MClip.asset "v" 10 (1920, 1080)) 2 4) =
      .ok (MClip.withStart (MClip.withPosition
        (MClip.subclipped (MClip.asset "v" 10 (1920, 1080)) 2 4)
        (Pos.tuple
          (parse_position (Pos.str "center")
            (MClip.size (MClip.colorClip (1920, 1080) (0, 0, 0) 30))).1
          (parse_position (Pos.str "center")
            (MClip.size (MClip.colorClip (1920, 1080) (0, 0, 0) 30))).2)) 2)) :=
  ⟨claim_C10.1 c9Env c10OvV "v" (MClip.asset "v" 10 (1920, 1080)) 2 4
      rfl rfl rfl rfl rfl (by norm_num [MClip.duration]) (by norm_num [MClip.duration]),
   claim_C10.2.1 c9Env c10OvG "g" (MClip.asset "g" 2 (320, 240)) 1 6
      rfl rfl rfl rfl rfl (by norm_num),
   claim_C10.2.2 (MClip.colorClip (1920, 1080) (0, 0, 0) 30) c10OvV
      (MClip.subclipped (MClip.asset "v" 10 (1920, 1080)) 2 4) 2 (Pos.str "center")
      rfl rfl rfl rfl rfl rfl⟩

/-- C3 (amended): an overlay whose asset key is missing (video / gif /
    image kinds) or whose asset reference is not in the catalog is
    skipped with a warning and processing continues with the remaining
    overlays; but a missing required field is not generally recoverable:
    an overlay missing its start_time (likewise type, end_time or
    position) raises an uncaught KeyError that aborts the run
    mid-pipeline, so an unreadable edit plan is not the only fatal
    condition. -/
theorem claim_C3 :
    (∀ (env : Env) (fv : MClip) (ov : Overlay) (rest : List Overlay) (t : String),
      ov.type? = some t → (t = "video" ∨ t = "gif" ∨ t = "image") → ov.asset? = none →
      process_overlays env fv (ov :: rest) = process_overlays env fv rest) ∧
    (∀ (env : Env) (fv : MClip) (ov : Overlay) (rest : List Overlay) (a : String),
      ov.type? = some "video" → ov.asset? = some a → env.video_assets a = none →
      process_overlays env fv (ov :: rest) = process_overlays env fv rest) ∧
    (∀ (env : Env) (fv : MClip) (ov : Overlay) (rest : List Overlay) (a : String),
      ov.type? = some "gif" → ov.asset? = some a → env.gif_assets a = none →
      process_overlays env fv (ov :: rest) = process_overlays env fv rest) ∧
    (∀ (env : Env) (fv : MClip) (ov : Overlay) (rest : List Overlay) (a : String),
      ov.type? = some "image" → ov.asset? = some a → env.image_assets a = none →
      process_overlays env fv (ov :: rest) = process_overlays env fv rest) ∧
    (∀ (env : Env) (fv : MClip) (ov : Overlay) (rest : List Overlay) (a : String)
        (orig : MClip),
      ov.type? = some "video" → ov.asset? = some a → env.video_assets a = some orig →
      ov.start_time? = none →
      process_overlays env fv (ov :: rest) = .error .keyError) := by
  refine ⟨?_, ?_, ?_, ?_, ?_⟩
  · intro env fv ov rest t hty hmem ha
    have hb : overlayBase env ov = .ok none := by
      rcases hmem with rfl | rfl | rfl
      · simp only [overlayBase, hty, ha]
        rfl
      · simp only [overlayBase, hty, ha]
        rfl
      · simp only [overlayBase, hty, ha]
        rfl
    have hpo : processOverlay env fv ov = .ok none := by
      simp only [processOverlay, hb]
    simp only [process_overlays, hpo]
  · intro env fv ov rest a hty ha hcat
    have hb : overlayBase env ov = .ok none := by
      simp only [overlayBase, hty, ha, hcat]
      rfl
    have hpo : processOverlay env fv ov = .ok none := by
      simp only [processOverlay, hb]
    simp only [process_overlays, hpo]
  · intro env fv ov rest a hty ha hcat
    have hb : overlayBase env ov = .ok none := by
      simp only [overlayBase, hty, ha, hcat]
      rfl
    have hpo : processOverlay env fv ov = .ok none := by
      simp only [processOverlay, hb]
    simp only [process_overlays, hpo]
  · intro env fv ov rest a hty ha hcat
    have hb : overlayBase env ov = .ok none := by
      simp only [overlayBase, hty, ha, hcat]
      rfl
    have hpo : processOverlay env fv ov = .ok none := by
      simp only [processOverlay, hb]
    simp only [process_overlays, hpo]
  · intro env fv ov rest a orig hty ha hcat hs
    have hb : overlayBase env ov = .error .keyError := by
      simp only [overlayBase, hty, ha, hcat, hs]
      rfl
    have hpo : processOverlay env fv ov = .error .keyError := by
      simp only [processOverlay, hb]
    simp only [process_overlays, hpo]

/-- Concrete overlays refuting C3 as stated: a video overlay of a
    present, resolvable asset that merely lacks its start_time key, and a
    fully well-formed text overlay declared after it. -/
def c3Bad : Overlay :=
  { type? := some "video", asset? := some "v", end_time? := some 5,
    position? := some (Pos.str "center") }

def c3Good : Overlay :=
  { type? := some "text", text? := some "hi", start_time? := some 0, end_time? := some 2,
    position? := some (Pos.str "center"), font_size? := some 40, color? := some "white" }

/-- Counterexample to C3 as stated: the overlay missing one required
    field (start_time) is not skipped — the whole overlay loop aborts
    with an uncaught KeyError, losing the following well-formed text
    overlay, which on its own would have survived. -/
theorem claim_C3_counterexample :
    process_overlays c9Env (MClip.colorClip (1920, 1080) (0, 0, 0) 30) [c3Bad, c3Good] =
      .error .keyError ∧
    processOverlay c9Env (MClip.colorClip (1920, 1080) (0, 0, 0) 30) c3Good =
      .ok (some (MClip.withStart (MClip.withPosition
        (MClip.withDuration (MClip.textClip "hi" none 40 (255, 255, 255)) (2 - 0))
        (Pos.tuple (.kw "center") (.kw "center"))) 0)) :=
  ⟨rfl, rfl⟩

/-- Witness for the amended C3 at the concrete catalog: a missing asset
    key skips and continues, missing catalog entries for each kind skip
    and continue, and the missing start_time aborts. -/
theorem claim_C3_witness :
    (process_overlays c9Env (MClip.colorClip (1920, 1080) (0, 0, 0) 30)
        ({ type? := some "image" } :: [c3Good]) =
      process_overlays c9Env (MClip.colorClip (1920, 1080) (0, 0, 0) 30) [c3Good]) ∧
    (process_overlays c9Env (MClip.colorClip (1920, 1080) (0, 0, 0) 30)
        ({ type? := some "video", asset? := some "zzz" } :: [c3Good]) =
      process_overlays c9Env (MClip.colorClip (1920, 1080) (0, 0, 0) 30) [c3Good]) ∧
    (process_overlays c9Env (MClip.colorClip (1920, 1080) (0, 0, 0) 30)
        ({ type? := some "gif", asset? := some "zzz" } :: [c3Good]) =
      process_overlays c9Env (MClip.colorClip (1920, 1080) (0, 0, 0) 30) [c3Good]) ∧
    (process_overlays c9Env (MClip.colorClip (1920, 1080) (0, 0, 0) 30)
        ({ type? := some "image", asset? := some "zzz" } :: [c3Good]) =
      process_overlays c9Env (MClip.colorClip (1920, 1080) (0, 0, 0) 30) [c3Good]) ∧
    (process_overlays c9Env (MClip.colorClip (1920, 1080) (0, 0, 0) 30) [c3Bad] =
      .error .keyError) :=
  ⟨claim_C3.1 c9Env (MClip.colorClip (1920, 1080) (0, 0, 0) 30)
      { type? := some "image" } [c3Good] "image" rfl (Or.inr (Or.inr rfl)) rfl,
   claim_C3.2.1 c9Env (MClip.colorClip (1920, 1080) (0, 0, 0) 30)
      { type? := some "video", asset? := some "zzz" } [c3Good] "zzz" rfl rfl rfl,
   claim_C3.2.2.1 c9Env (MClip.colorClip (1920, 1080) (0, 0, 0) 30)
      { type? := some "gif", asset? := some "zzz" } [c3Good] "zzz" rfl rfl rfl,
   claim_C3.2.2.2.1 c9Env (MClip.colorClip (1920, 1080) (0, 0, 0) 30)
      { type? := some "image", asset? := some "zzz" } [c3Good] "zzz" rfl rfl rfl,
   claim_C3.2.2.2.2 c9Env (MClip.colorClip (1920, 1080) (0, 0, 0) 30)
      c3Bad [] "v" (MClip.asset "v" 10 (1920, 1080)) rfl rfl rfl rfl⟩

/-- Sample of an audio clip at a time inside its extent, silence
    outside. -/
def AClip.sampleAt (a : AClip) (t : ℚ) : ℚ :=
  if 0 ≤ t ∧ t < a.duration then a.sample t else 0

/-- Amplitude scaling, clip * volume (src/main.py line 585): a pure
    multiplicative gain. -/
def volumeScale (a : AClip) (v : ℚ) : AClip :=
  ⟨a.duration, fun t => v * a.sample t⟩

/-- Modelled from the spec: the external additive audio overlay mixes two
    tracks sample-wise (overlapping amplitudes add, never replace), the
    result lasting as long as the longer track.  The call site
    (src/main.py line 590) passes only the two tracks themselves, so the
    mix is aligned at the tracks' own origins. -/
def AClip.overlay (a b : AClip) : AClip :=
  ⟨max a.duration b.duration, fun t => AClip.sampleAt a t + AClip.sampleAt b t⟩

/-- The additive mix is commutative. -/
theorem AClip.overlay_comm (x y : AClip) : AClip.overlay x y = AClip.overlay y x := by
  unfold AClip.overlay
  congr 1
  · exact max_comm _ _
  · funext t
    exact add_comm _ _

/-- One audio descriptor from the plan (a Python dict). -/
structure AudioDesc where
  asset? : Option String := none
  start_time? : Option ℚ := none
  end_time? : Option ℚ := none
  volume? : Option ℚ := none

/-- The audio mixing loop (src/main.py lines 566-593) carrying the
    accumulated mix: entries with a missing asset key, an asset absent
    from the catalog, or an invalid time range are skipped with a
    warning; a surviving track is trimmed via safe_subclip from the
    entry's start_time to its end_time (defaulting to the asset's native
    duration), gain-scaled by volume (default 1.0), and either
    initializes the mix or is overlaid onto it; the start_time key is
    read directly (KeyError when absent). -/
def process_audio_from (env : Env) (acc : Option AClip) :
    List AudioDesc → Except PyErr (Option AClip)
  | [] => .ok acc
  | ad :: rest =>
    match ad.asset? with
    | none => process_audio_from env acc rest
    | some name =>
      match env.audio_assets name with
      | none => process_audio_from env acc rest
      | some orig =>
        match ad.start_time? with
        | none => .error .keyError
        | some s =>
          match safe_subclip orig s ((ad.end_time?).getD orig.duration) with
          | none => process_audio_from env acc rest
          | some c =>
            match acc with
            | none => process_audio_from env (some (volumeScale c ((ad.volume?).getD 1))) rest
            | some f =>
              process_audio_from env
                (some (AClip.overlay f (volumeScale c ((ad.volume?).getD 1)))) rest

/-- The audio phase starts with no mix. -/
def process_audio (env : Env) (ads : List AudioDesc) : Except PyErr (Option AClip) :=
  process_audio_from env none ads

/-- C8 (amended): for two resolvable audio descriptors the mix is the
    sample-wise additive overlay of the two gain-scaled trimmed tracks —
    the first resolved track initializes the mix, the second is summed
    in, volume is a pure multiplicative gain, and mixing A then B equals
    mixing B then A; however both tracks are aligned at the mix's origin:
    the descriptor's start_time serves only as the trim offset into the
    source and is not a placement time on the output timeline (see the
    counterexample). -/
theorem claim_C8 (env : Env) (dA dB : AudioDesc) (nA nB : String) (oA oB : AClip)
    (sA sB : ℚ) (cA cB : AClip)
    (h1 : dA.asset? = some nA) (h2 : env.audio_assets nA = some oA)
    (h3 : dA.start_time? = some sA)
    (h4 : safe_subclip oA sA ((dA.end_time?).getD oA.duration) = some cA)
    (h5 : dB.asset? = some nB) (h6 : env.audio_assets nB = some oB)
    (h7 : dB.start_time? = some sB)
    (h8 : safe_subclip oB sB ((dB.end_time?).getD oB.duration) = some cB) :
    process_audio env [dA, dB] =
      .ok (some (AClip.overlay (volumeScale cA ((dA.volume?).getD 1))
        (volumeScale cB ((dB.volume?).getD 1)))) ∧
    process_audio env [dA, dB] = process_audio env [dB, dA] ∧
    (∀ t : ℚ,
      (AClip.overlay (volumeScale cA ((dA.volume?).getD 1))
        (volumeScale cB ((dB.volume?).getD 1))).sample t =
      AClip.sampleAt (volumeScale cA ((dA.volume?).getD 1)) t +
      AClip.sampleAt (volumeScale cB ((dB.volume?).getD 1)) t) := by
  have hAB : process_audio env [dA, dB] =
      .ok (some (AClip.overlay (volumeScale cA ((dA.volume?).getD 1))
        (volumeScale cB ((dB.volume?).getD 1)))) := by
    simp only [process_audio, process_audio_from, h1, h2, h3, h4, h5, h6, h7, h8]
  have hBA : process_audio env [dB, dA] =
      .ok (some (AClip.overlay (volumeScale cB ((dB.volume?).getD 1))
        (volumeScale cA ((dA.volume?).getD 1)))) := by
    simp only [process_audio, process_audio_from, h1, h2, h3, h4, h5, h6, h7, h8]
  refine ⟨hAB, ?_, fun t => rfl⟩
  rw [hAB, hBA, AClip.overlay_comm]

/-- Witness catalog for C8. -/
def c8Env : Env where
  video_assets := fun _ => none
  gif_assets := fun _ => none
  image_assets := fun _ => none
  audio_assets := fun n =>
    if n = "a" then some ⟨4, fun t => t⟩
    else if n = "b" then some ⟨2, fun t => 2 * t⟩ else none
  fontFile := fun _ => none

def c8DescA : AudioDesc :=
  { asset? := some "a", start_time? := some 1, end_time? := some 3, volume? := some (1/2) }

def c8DescB : AudioDesc :=
  { asset? := some "b", start_time? := some 0 }

/-- Witness for the amended C8 at two concrete tracks: a 4 s ramp
    trimmed to [1,3) at half gain, and a 2 s ramp at default gain. -/
theorem claim_C8_witness :
    (process_audio c8Env [c8DescA, c8DescB] =
      .ok (some (AClip.overlay
        (volumeScale (ClipLike.subclipOf (⟨4, fun t => t⟩ : AClip) 1 3)
          ((c8DescA.volume?).getD 1))
        (volumeScale (ClipLike.subclipOf (⟨2, fun t => 2 * t⟩ : AClip) 0 2)
          ((c8DescB.volume?).getD 1)))) ∧
    process_audio c8Env [c8DescA, c8DescB] = process_audio c8Env [c8DescB, c8DescA] ∧
    (∀ t : ℚ,
      (AClip.overlay
        (volumeScale (ClipLike.subclipOf (⟨4, fun t => t⟩ : AClip) 1 3)
          ((c8DescA.volume?).getD 1))
        (volumeScale (ClipLike.subclipOf (⟨2, fun t => 2 * t⟩ : AClip) 0 2)
          ((c8DescB.volume?).getD 1))).sample t =
      AClip.sampleAt (volumeScale (ClipLike.subclipOf (⟨4, fun t => t⟩ : AClip) 1 3)
        ((c8DescA.volume?).getD 1)) t +
      AClip.sampleAt (volumeScale (ClipLike.subclipOf (⟨2, fun t => 2 * t⟩ : AClip) 0 2)
        ((c8DescB.volume?).getD 1)) t)) :=
  claim_C8 c8Env c8DescA c8DescB "a" "b" (⟨4, fun t => t⟩ : AClip) (⟨2, fun t => 2 * t⟩ : AClip)
    1 0 (ClipLike.subclipOf (⟨4, fun t => t⟩ : AClip) 1 3)
    (ClipLike.subclipOf (⟨2, fun t => 2 * t⟩ : AClip) 0 2)
    rfl rfl rfl rfl rfl rfl rfl rfl

/-- Catalog for the C8 counterexample: one 2 s ramp audio asset. -/
def c8Env2 : Env where
  video_assets := fun _ => none
  gif_assets := fun _ => none
  image_assets := fun _ => none
  audio_assets := fun n => if n = "b" then some ⟨2, fun t => t⟩ else none
  fontFile := fun _ => none

/-- The code's single-descriptor mix: the gain-scaled trimmed track
    itself, aligned at the mix's origin. -/
def c8Mix : AClip := volumeScale (ClipLike.subclipOf (⟨2, fun t => t⟩ : AClip) 1 2) 1

/-- The spec-claimed placement of a resolved track: summed into the mix
    at the descriptor's absolute start_time on the output timeline
    (silence before it). -/
def placedAt (c : AClip) (s : ℚ) : AClip :=
  ⟨s + c.duration, fun t => if s ≤ t then c.sample (t - s) else 0⟩

/-- Counterexample to C8 as stated: one audio descriptor of a 2 s ramp
    asset with start_time 1 (end defaulting to the asset duration).  The
    code's mix is the trimmed track at the origin: it lasts 1 s and at
    output time 1/2 already plays the source sample from offset 3/2; a
    track summed in at its absolute start_time would last until 2 s and
    be silent at output time 1/2.  The mix is not placed at start_time. -/
theorem claim_C8_counterexample :
    process_audio c8Env2 [{ asset? := some "b", start_time? := some 1 }] =
      .ok (some c8Mix) ∧
    c8Mix.duration = 1 ∧
    (placedAt c8Mix 1).duration = 2 ∧
    AClip.sampleAt c8Mix (1/2) = 3/2 ∧
    AClip.sampleAt (placedAt c8Mix 1) (1/2) = 0 ∧
    ((1 : ℚ) ≠ 2 ∧ (3/2 : ℚ) ≠ 0) := by
  refine ⟨rfl, ?_, ?_, ?_, ?_, by norm_num⟩
  · show (2 : ℚ) - 1 = 1
    norm_num
  · show (1 : ℚ) + ((2 : ℚ) - 1) = 2
    norm_num
  · have hc : (0 : ℚ) ≤ 1/2 ∧ (1/2 : ℚ) < c8Mix.duration := by
      refine ⟨by norm_num, ?_⟩
      show (1/2 : ℚ) < 2 - 1
      norm_num
    simp only [AClip.sampleAt]
    rw [if_pos hc]
    show (1 : ℚ) * (1 + 1/2) = 3/2
    norm_num
  · have hc : (0 : ℚ) ≤ 1/2 ∧ (1/2 : ℚ) < (placedAt c8Mix 1).duration := by
      refine ⟨by norm_num, ?_⟩
      show (1/2 : ℚ) < 1 + (2 - 1)
      norm_num
    simp only [AClip.sampleAt]
    rw [if_pos hc]
    show (if (1 : ℚ) ≤ 1/2 then c8Mix.sample (1/2 - 1) else 0) = 0
    rw [if_neg (by norm_num : ¬ (1 : ℚ) ≤ 1/2)]
